import Mathlib

/-!
# Verification of the RTC bracket placement and handicap engine

A shallow embedding, in Lean 4, of the core algorithms of the
RTC_DRAW_AUTOMATION repository:

* the IRTPA doubles team-handicap calculator
  (`src/matchmaking/teamHandicap.js`),
* the handicap class rounder (`src/matchmaking/handicapRounding.js`),
* the bracket placement engine (`seedParticipants`, `placeByAvailability`,
  `placeFullBracket`, `pureRandomPlayInPlacement`), and
* the round-1 bracket builder (`buildRound1`).

Modelling conventions:

* JavaScript numbers are modelled as exact rationals (`ℚ`).  Every numeric
  computation appearing in the embedded code paths is exact at the inputs
  used by the theorems below, so no floating-point rounding is lost.
* JavaScript `null`/`undefined` is modelled with `Option`.
* `Math.random`-driven shuffles are modelled by an oracle (`Shuffler`)
  supplying the outcome of each `shuffle` call; the theorems quantify over
  all oracles whose outcomes are permutations of their inputs, which is
  exactly the set of outcomes Fisher-Yates can produce.
* JavaScript object lookup with a numeric key (`ADJUSTMENT_TABLE[d]`) hits
  an integer-keyed entry iff the number is integral; this is made explicit
  by `tableKey`.
-/

namespace RTC

/-! ## Team handicap calculator (`src/matchmaking/teamHandicap.js`) -/

/-- A player record as consumed by `calculateTeamHandicap`.  The JS code
reads `singlesHCAP ?? singlesHandicap` (resp. doubles); the two alternative
field spellings collapse to a single optional field here. -/
structure Player where
  singlesHCAP : Option ℚ
  doublesHCAP : Option ℚ
deriving DecidableEq

/-- The IRTPA adjustment lookup table (`ADJUSTMENT_TABLE`, lines 12-19).
Keys are the integers 1..60; any other key is absent (JS `undefined`). -/
def ADJUSTMENT_TABLE (k : ℕ) : Option ℚ :=
  match k with
  | 1 => some 0.5 | 2 => some 1.0 | 3 => some 1.4 | 4 => some 1.8 | 5 => some 2.1
  | 6 => some 2.4 | 7 => some 2.6 | 8 => some 2.8 | 9 => some 3.0 | 10 => some 3.2
  | 11 => some 3.4 | 12 => some 3.6 | 13 => some 3.8 | 14 => some 4.0 | 15 => some 4.2
  | 16 => some 4.4 | 17 => some 4.6 | 18 => some 4.8 | 19 => some 5.0 | 20 => some 5.2
  | 21 => some 5.4 | 22 => some 5.6 | 23 => some 5.8 | 24 => some 6.0 | 25 => some 6.2
  | 26 => some 6.4 | 27 => some 6.6 | 28 => some 6.8 | 29 => some 7.0 | 30 => some 7.2
  | 31 => some 7.4 | 32 => some 7.6 | 33 => some 7.8 | 34 => some 8.0 | 35 => some 8.2
  | 36 => some 8.4 | 37 => some 8.6 | 38 => some 8.8 | 39 => some 9.0 | 40 => some 9.2
  | 41 => some 9.4 | 42 => some 9.6 | 43 => some 9.8 | 44 => some 10.0 | 45 => some 10.2
  | 46 => some 10.4 | 47 => some 10.6 | 48 => some 10.8 | 49 => some 10.9 | 50 => some 11.0
  | 51 => some 11.1 | 52 => some 11.2 | 53 => some 11.3 | 54 => some 11.4 | 55 => some 11.5
  | 56 => some 11.6 | 57 => some 11.7 | 58 => some 11.8 | 59 => some 11.9 | 60 => some 12.0
  | _ => none

/-- A JS object property access `ADJUSTMENT_TABLE[q]` with a numeric key `q`
finds an integer-keyed entry iff `q` is integral (its canonical string is the
integer numeral); `tableKey` extracts that integer key when it exists. -/
def tableKey (q : ℚ) : Option ℕ :=
  if q.den = 1 ∧ 0 ≤ q.num then some q.num.toNat else none

/-- `getAdjustmentFactor` (lines 46-50): 0 for difference 0, capped at 12.0
for differences ≥ 60, table lookup with fallback 12.0 otherwise. -/
def getAdjustmentFactor (difference : ℚ) : ℚ :=
  if difference = 0 then 0
  else if 60 ≤ difference then 12.0
  else
    match tableKey difference with
    | some k => (ADJUSTMENT_TABLE k).getD 12.0
    | none => 12.0

/-- `getPlayerEffectiveHandicap` (lines 29-37): the minimum of singles and
doubles when both exist, else whichever exists, else `none`. -/
def getPlayerEffectiveHandicap (player : Player) : Option ℚ :=
  match player.singlesHCAP, player.doublesHCAP with
  | some s, some d => some (min s d)
  | some s, none => some s
  | none, some d => some d
  | none, none => none

/-- The result record of `calculateTeamHandicap`.  The failure shape
(`success:false` plus the two, possibly missing, player handicaps) and the
success shape are merged into one record with optional fields. -/
structure TeamResult where
  success : Bool
  teamHandicap : Option ℚ
  playerAHandicap : Option ℚ
  playerBHandicap : Option ℚ
  difference : Option ℚ
  adjustment : Option ℚ
  betterHandicap : Option ℚ
deriving DecidableEq

/-- `calculateTeamHandicap` (lines 65-92). -/
def calculateTeamHandicap (playerA playerB : Player) : TeamResult :=
  let handicapA := getPlayerEffectiveHandicap playerA
  let handicapB := getPlayerEffectiveHandicap playerB
  match handicapA, handicapB with
  | some a, some b =>
    let difference := |a - b|
    let adjustment := getAdjustmentFactor difference
    let betterHandicap := min a b
    let teamHandicap := betterHandicap + adjustment
    { success := true
      teamHandicap := some teamHandicap
      playerAHandicap := some a
      playerBHandicap := some b
      difference := some difference
      adjustment := some adjustment
      betterHandicap := some betterHandicap }
  | _, _ =>
    { success := false
      teamHandicap := none
      playerAHandicap := handicapA
      playerBHandicap := handicapB
      difference := none
      adjustment := none
      betterHandicap := none }

/-! ## Handicap class rounder (`src/matchmaking/handicapRounding.js`) -/

/-- Bounds of one event class.  `'1st'` has `min: null`, hence both fields
are optional (the JS code guards each with `!== null`). -/
structure ClassBounds where
  min : Option ℚ
  max : Option ℚ
deriving DecidableEq

/-- Helper: `pat` is a prefix of `hay` (character-exact). -/
def leadsWith : List Char → List Char → Bool
  | [], _ => true
  | _ :: _, [] => false
  | a :: as, b :: bs => a == b && leadsWith as bs

/-- Helper: JS `hay.includes(pat)` — `pat` occurs contiguously in `hay`. -/
def containsSeq (hay pat : List Char) : Bool :=
  match hay with
  | [] => pat.isEmpty
  | _ :: t => leadsWith pat hay || containsSeq t pat

/-- `CLASS_BOUNDS` (lines 12-26) in object-insertion order.  Entries whose
bounds are JS `null` (the club/championship aliases) carry `none`; the
lookup loop skips them (`if (bounds && ...)`). -/
def CLASS_BOUNDS : List (List Char × Option ClassBounds) :=
  [ ("4th".data, some ⟨some 40.0, some 49.0⟩)
  , ("4th class".data, some ⟨some 40.0, some 49.0⟩)
  , ("3rd".data, some ⟨some 30.0, some 39.0⟩)
  , ("3rd class".data, some ⟨some 30.0, some 39.0⟩)
  , ("2nd".data, some ⟨some 20.0, some 29.0⟩)
  , ("2nd class".data, some ⟨some 20.0, some 29.0⟩)
  , ("1st".data, some ⟨none, some 19.0⟩)
  , ("1st class".data, some ⟨none, some 19.0⟩)
  , ("club".data, none)
  , ("club championship".data, none)
  , ("championship".data, none)
  , ("champ".data, none)
  , ("champs".data, none) ]

/-- `getEventClassBounds` (lines 35-54): empty name → no bounds; any
club/championship marker → no bounds; otherwise the first `CLASS_BOUNDS`
entry (insertion order) with non-null bounds whose key occurs in the
lowercased event name. -/
def getEventClassBounds (eventName : String) : Option ClassBounds :=
  if eventName = "" then none
  else
    let lowerName := eventName.data.map Char.toLower
    if containsSeq lowerName "club".data || containsSeq lowerName "championship".data
        || containsSeq lowerName "champ".data then
      none
    else
      match CLASS_BOUNDS.find? (fun e => e.2.isSome && containsSeq lowerName e.1) with
      | some e => e.2
      | none => none

/-- `roundHandicapForClass` (lines 67-91). -/
def roundHandicapForClass (handicap : ℚ) (bounds : Option ClassBounds) : ℚ :=
  match bounds with
  | none => handicap
  | some b =>
    if handicap < 0 then handicap
    else if handicap ≤ 19 then handicap
    else
      let r1 := match b.max with
                | some mx => if handicap > mx then mx else handicap
                | none => handicap
      let r2 := match b.min with
                | some mn => if r1 < mn then mn else r1
                | none => r1
      r2

/-- The rounder keyed by event name: the composition used by
`processHandicapForDisplay` (lines 129-130), i.e. the spec's
`round(handicap, eventName)`. -/
def roundForEvent (handicap : ℚ) (eventName : String) : ℚ :=
  roundHandicapForClass handicap (getEventClassBounds eventName)

/-! ## Bracket placement engine (`src/unnamed/part_001`, lines 281-760)

Placement only reads a participant's `availability`, writes its `seed`, and
copies the rest of the record (`{...p, seed: pos+1}`); the record is modelled
with the fields the engine touches. -/

/-- A participant record as consumed by the placement engine.
`availability` is `'D'`, `'N'`, or anything else/absent (`none` or another
character — the engine compares with `=== 'D'` / `=== 'N'`). -/
structure Participant where
  name : String
  isBye : Bool
  seed : Option ℕ
  availability : Option Char
deriving DecidableEq

/-- `createBye` (lines 310-316).  The JS object has only the three listed
fields; `availability` is absent (`undefined`). -/
def createBye : Participant :=
  { name := "BYE", isBye := true, seed := none, availability := none }

/-- The object-spread copy `{...participant, seed: pos + 1}`. -/
def withSeed (p : Participant) (s : ℕ) : Participant :=
  { p with seed := some s }

/-- Oracle supplying the outcome of each `shuffle(...)` call (Fisher-Yates
over `Math.random`).  Each syntactic call site uses a distinct first
argument, so the outcomes of different calls are independent, as in JS. -/
structure Shuffler where
  shP : ℕ → List Participant → List Participant
  shN : ℕ → List ℕ → List ℕ

/-- A shuffler is lawful when every outcome is a permutation of its input —
exactly the guarantee of the Fisher-Yates `shuffle` (lines 297-304). -/
def Shuffler.Lawful (s : Shuffler) : Prop :=
  (∀ n l, (s.shP n l).Perm l) ∧ (∀ n l, (s.shN n l).Perm l)

/-- The oracle realised by a random stream that never swaps (every shuffle
returns its input unchanged); one concrete reachable behaviour. -/
def idShuffler : Shuffler :=
  { shP := fun _ l => l, shN := fun _ l => l }

/-- The result-array cells: `none` is a JS `null` cell of
`new Array(bracketSize).fill(null)`. -/
abbrev Cells := List (Option Participant)

/-- The play-in placing loops (`placeByAvailability` lines 434-447 and
465-478, `pureRandomPlayInPlacement` lines 663-676): for each selected match
slot, put the next two group members (seeded by final position) at positions
`base + 2*slot` and `base + 2*slot + 1`; each position is written only while
group members remain (the JS index guard `if (idx < group.length)`), which is
the same as consuming the group list two at a time. -/
def playInLoop (base : ℕ) : List ℕ → List Participant → Cells → Cells
  | [], _, res => res
  | _ :: rest, [], res => playInLoop base rest [] res
  | slot :: rest, [p], res =>
    playInLoop base rest [] (res.set (base + 2 * slot) (some (withSeed p (base + 2 * slot + 1))))
  | slot :: rest, p :: q :: g, res =>
    playInLoop base rest g
      ((res.set (base + 2 * slot) (some (withSeed p (base + 2 * slot + 1)))).set
        (base + 2 * slot + 1) (some (withSeed q (base + 2 * slot + 2))))

/-- The bye-match placing loops (`placeByAvailability` lines 450-463 and
481-494, `pureRandomPlayInPlacement` lines 636-649 and 679-691): for each
selected match slot, one group member (seeded by position) plus one BYE, or
two BYEs once the group is exhausted. -/
def byeLoop (base : ℕ) : List ℕ → List Participant → Cells → Cells
  | [], _, res => res
  | slot :: rest, [], res =>
    byeLoop base rest []
      ((res.set (base + 2 * slot) (some createBye)).set (base + 2 * slot + 1) (some createBye))
  | slot :: rest, p :: g, res =>
    byeLoop base rest g
      ((res.set (base + 2 * slot) (some (withSeed p (base + 2 * slot + 1)))).set
        (base + 2 * slot + 1) (some createBye))

/-- The final safety net (lines 496-501 and 694-699): replace every
remaining `null` cell by a BYE. -/
def fillNulls (res : Cells) : Cells :=
  res.map fun c => match c with
    | none => some createBye
    | some p => some p

/-- JS `Math.round` on a (non-negative, here) rational: floor of `q + 1/2`. -/
def jsRound (q : ℚ) : ℤ :=
  ⌊q + 1 / 2⌋

/-- Result of one placement strategy: the engine's strategies all return
`success: true` plus the placed array (stats fields, which no claim
references, are omitted). -/
structure PlaceResult where
  success : Bool
  placed : Cells
deriving DecidableEq

/-- `pureRandomPlayInPlacement` (lines 625-714).  Shuffle call sites:
`shP 2` for the participants, `shN 2` for the match slots.  Both branches of
the JS code place one participant (or two for a play-in) per selected match
slot and end with the null-fill; the `playInMatchCount <= 0` branch
(lines 631-649) walks `shuffledSlots[i]` placing participant `i` while
participants remain and double BYEs afterwards, which is exactly
`byeLoop 0 shuffledSlots shuffled`. -/
def pureRandomPlayInPlacement (s : Shuffler) (participants : List Participant)
    (bracketSize playInMatchCount : ℕ) : PlaceResult :=
  let shuffled := s.shP 2 participants
  let res0 : Cells := List.replicate bracketSize none
  let round1Matches := bracketSize / 2
  let res :=
    if playInMatchCount = 0 then
      let shuffledSlots := s.shN 2 (List.range round1Matches)
      byeLoop 0 shuffledSlots shuffled res0
    else
      let playInParticipantCount := playInMatchCount * 2
      let playInGroup := shuffled.take playInParticipantCount
      let byeGroup := shuffled.drop playInParticipantCount
      let shuffledSlots := s.shN 2 (List.range round1Matches)
      let playInSlots := shuffledSlots.take playInMatchCount
      let byeSlots := shuffledSlots.drop playInMatchCount
      byeLoop 0 byeSlots byeGroup (playInLoop 0 playInSlots playInGroup res0)
  { success := true, placed := fillNulls res }

/-- The prefix-filling loops of `placeFullBracket` (lines 569-577):
`for (i = 0; i < players.length && i < halfSize; i++) result[base+i] = seeded`. -/
def fillSection (base : ℕ) : List Participant → ℕ → Cells → Cells
  | [], _, res => res
  | _, 0, res => res
  | p :: ps, k + 1, res =>
    fillSection (base + 1) ps k (res.set base (some (withSeed p (base + 1))))

/-- Day-overflow loop of `placeFullBracket` (lines 583-588): place the player
at `overflowCursor` only if that cell is an in-bounds `null`; otherwise the
cursor does not advance and the player is skipped. -/
def dayOverflowLoop : List Participant → ℕ → Cells → Cells
  | [], _, res => res
  | p :: ps, cursor, res =>
    if res[cursor]? = some none then
      dayOverflowLoop ps (cursor + 1) (res.set cursor (some (withSeed p (cursor + 1))))
    else
      dayOverflowLoop ps cursor res

/-- The `while` scan of the night-overflow loop (lines 594-596): advance the
index past occupied in-bounds cells.  `fuel` bounds the scan (called with
`size`, which the JS bound `idx < size` also enforces). -/
def skipOccupied (res : Cells) (size : ℕ) : ℕ → ℕ → ℕ
  | 0, idx => idx
  | fuel + 1, idx =>
    if idx < size ∧ res[idx]? ≠ some none then skipOccupied res size fuel (idx + 1)
    else idx

/-- Night-overflow loop of `placeFullBracket` (lines 591-600): scan for the
next empty slot from the current index and place there if in bounds. -/
def nightOverflowLoop (size : ℕ) : List Participant → ℕ → Cells → Cells
  | [], _, res => res
  | p :: ps, idx, res =>
    let j := skipOccupied res size size idx
    if j < size then
      nightOverflowLoop size ps j (res.set j (some (withSeed p (j + 1))))
    else
      nightOverflowLoop size ps j res

/-- The seeded copy of the shuffled list in the no-availability full-bracket
branch (line 545): `shuffled.map((p, i) => ({ ...p, seed: i + 1 }))`,
with `i` starting at `k`. -/
def seedMap (k : ℕ) : List Participant → Cells
  | [] => []
  | p :: ps => some (withSeed p (k + 1)) :: seedMap (k + 1) ps

/-- `placeFullBracket` (lines 527-615).  Shuffle call sites: `shP 3` for the
no-availability branch, `shP 4` / `shP 5` for the Day/Night groups.  Note the
availability branch has no null-fill safety net. -/
def placeFullBracket (s : Shuffler) (participants : List Participant)
    (bracketSize : ℕ) : PlaceResult :=
  let dayPlayers := participants.filter fun p => p.availability = some 'D'
  let nightPlayers := participants.filter fun p => p.availability = some 'N'
  if dayPlayers.isEmpty ∧ nightPlayers.isEmpty then
    let shuffled := s.shP 3 participants
    { success := true, placed := seedMap 0 shuffled }
  else
    let shuffledDay := s.shP 4 dayPlayers
    let shuffledNight := s.shP 5 nightPlayers
    let halfSize := bracketSize / 2
    let res0 : Cells := List.replicate bracketSize none
    let res1 := fillSection 0 shuffledDay halfSize res0
    let res2 := fillSection halfSize shuffledNight halfSize res1
    let overflowCursor := if shuffledDay.length < halfSize then shuffledDay.length else halfSize
    let res3 := dayOverflowLoop (shuffledDay.drop halfSize) overflowCursor res2
    let res4 := nightOverflowLoop bracketSize (shuffledNight.drop halfSize) halfSize res3
    { success := true, placed := res4 }

/-- The partial-bracket availability-aware body of `placeByAvailability`
(lines 380-518) after the proportional-allocation rounding
(line 385), which `availabilityPlayInPlacement` below supplies as
`dayPlayInMatches`.  Shuffle call sites: `shP 0` / `shP 1` for the Day/Night
groups, `shN 0` / `shN 1` for the Day/Night match-slot lists.
`Math.max(0, ...)` subtractions are ℕ-truncated subtraction; every quantity
subtracted is bounded by the minuend exactly as in the JS code. -/
def availabilityPlayInCore (s : Shuffler) (dayPlayers nightPlayers : List Participant)
    (bracketSize playInMatchCount dayPlayInMatches : ℕ) : PlaceResult :=
  let round1Matches := bracketSize / 2
  let playInParticipantCount := playInMatchCount * 2
  let shuffledDay := s.shP 0 dayPlayers
  let shuffledNight := s.shP 1 nightPlayers
  let nightPlayInMatches := playInMatchCount - dayPlayInMatches
  let dayPlayInPlayers := Min.min (dayPlayInMatches * 2) dayPlayers.length
  let nightPlayInPlayers := Min.min (nightPlayInMatches * 2) nightPlayers.length
  let totalPlayInNeeded := playInParticipantCount
  let actuals :=
    if dayPlayInPlayers + nightPlayInPlayers < totalPlayInNeeded then
      let shortfall := totalPlayInNeeded - (dayPlayInPlayers + nightPlayInPlayers)
      if shortfall ≤ dayPlayers.length - dayPlayInPlayers then
        (dayPlayInPlayers + shortfall, nightPlayInPlayers)
      else if shortfall ≤ nightPlayers.length - nightPlayInPlayers then
        (dayPlayInPlayers, nightPlayInPlayers + shortfall)
      else
        (dayPlayInPlayers, nightPlayInPlayers)
    else
      (dayPlayInPlayers, nightPlayInPlayers)
  let actualDayPlayIn := actuals.1
  let actualNightPlayIn := actuals.2
  let dayPlayInGroup := shuffledDay.take actualDayPlayIn
  let dayByeGroup := shuffledDay.drop actualDayPlayIn
  let nightPlayInGroup := shuffledNight.take actualNightPlayIn
  let nightByeGroup := shuffledNight.drop actualNightPlayIn
  let halfSize := bracketSize / 2
  let dayMatchCount := round1Matches / 2
  let nightMatchCount := round1Matches / 2
  let shuffledDaySlots := s.shN 0 (List.range dayMatchCount)
  let dayPlayInSlots := shuffledDaySlots.take ((actualDayPlayIn + 1) / 2)
  let dayByeSlots := shuffledDaySlots.drop ((actualDayPlayIn + 1) / 2)
  let shuffledNightSlots := s.shN 1 (List.range nightMatchCount)
  let nightPlayInSlots := shuffledNightSlots.take ((actualNightPlayIn + 1) / 2)
  let nightByeSlots := shuffledNightSlots.drop ((actualNightPlayIn + 1) / 2)
  let res0 : Cells := List.replicate bracketSize none
  let res1 := playInLoop 0 dayPlayInSlots dayPlayInGroup res0
  let res2 := byeLoop 0 dayByeSlots dayByeGroup res1
  let res3 := playInLoop halfSize nightPlayInSlots nightPlayInGroup res2
  let res4 := byeLoop halfSize nightByeSlots nightByeGroup res3
  { success := true, placed := fillNulls res4 }

/-- The partial-bracket availability-aware strategy: the proportional
allocation `Math.round(playInMatchCount * (dayPlayers.length /
totalPlayers))` (line 385) followed by the placement body. -/
def availabilityPlayInPlacement (s : Shuffler) (dayPlayers nightPlayers : List Participant)
    (totalPlayers bracketSize playInMatchCount : ℕ) : PlaceResult :=
  let dayPlayInMatches :=
    (jsRound ((playInMatchCount : ℚ) * ((dayPlayers.length : ℚ) / (totalPlayers : ℚ)))).toNat
  availabilityPlayInCore s dayPlayers nightPlayers bracketSize playInMatchCount dayPlayInMatches

/-- `placeByAvailability` (lines 345-519): dispatch to the full-bracket
strategy, the pure-random play-in strategy (no availability data at all), or
the availability-aware play-in strategy. -/
def placeByAvailability (s : Shuffler) (participants : List Participant)
    (bracketSize : ℕ) : PlaceResult :=
  let totalPlayers := participants.length
  let round2Slots := bracketSize / 2
  if totalPlayers = bracketSize then
    placeFullBracket s participants bracketSize
  else
    let playInMatchCount := totalPlayers - round2Slots
    let dayPlayers := participants.filter fun p => p.availability = some 'D'
    let nightPlayers := participants.filter fun p => p.availability = some 'N'
    if dayPlayers.isEmpty ∧ nightPlayers.isEmpty then
      pureRandomPlayInPlacement s participants bracketSize playInMatchCount
    else
      availabilityPlayInPlacement s dayPlayers nightPlayers totalPlayers bracketSize
        playInMatchCount

/-- The validation-failure taxonomy of `seedParticipants`: the two
structured error strings of lines 725-737 ('No participants to place' /
'Invalid bracket size. Must be 8, 16, 32, 64, or 128'). -/
inductive PlaceError where
  | emptyInput
  | invalidSize
deriving DecidableEq

/-- The allowed bracket sizes (line 732). -/
def allowedSizes : List ℕ := [8, 16, 32, 64, 128]

/-- The structured result of `seedParticipants`: failure results carry an
error and no slot array; success results carry the placed array.  The
embedded pipeline is a total function, mirroring that the JS `try/catch`
lets no exception escape. -/
structure SeedResult where
  success : Bool
  error : Option PlaceError
  placed : Option Cells
deriving DecidableEq

/-- `seedParticipants` (lines 723-755): the main `place` entry point.
The empty-input check (line 725) precedes the size check (line 732). -/
def seedParticipants (s : Shuffler) (participants : List Participant)
    (bracketSize : ℕ) : SeedResult :=
  if participants.length = 0 then
    { success := false, error := some .emptyInput, placed := none }
  else if bracketSize ∉ allowedSizes then
    { success := false, error := some .invalidSize, placed := none }
  else
    let result := placeByAvailability s participants bracketSize
    { success := result.success, error := none, placed := some result.placed }

/-! ## Round-1 bracket builder (`src/unnamed/part_003`, lines 139-169) -/

/-- A round-1 match (`src/unnamed/part_003` lines 147-152). -/
structure Match where
  matchNumber : ℕ
  player1 : Option Participant
  player2 : Option Participant
  winner : Option Participant
deriving DecidableEq

/-- `buildRound1` (lines 139-169), restricted to its `matches` output.  The
JS loop bound `i < participants.length / 2` on a float means
`⌈length / 2⌉` iterations; out-of-range accesses give `undefined`, coerced
to `null` by `player1 || null`.  The winner logic (lines 155-159):
`player1 && player2 && player2.isBye → player1`, else
`player2 && player1 && player1.isBye → player2`, else null. -/
def buildRound1 (participants : List Participant) : List Match :=
  (List.range ((participants.length + 1) / 2)).map fun i =>
    let player1 := participants[2 * i]?
    let player2 := participants[2 * i + 1]?
    { matchNumber := i + 1
      player1 := player1
      player2 := player2
      winner :=
        match player1, player2 with
        | some p1, some p2 =>
          if p2.isBye then some p1
          else if p1.isBye then some p2
          else none
        | _, _ => none }

/-! ## Observations used by the claims -/

/-- A cell holds a real (non-BYE) participant. -/
def isRealCell : Option Participant → Bool
  | some p => !p.isBye
  | none => false

/-- Number of real participants in a slot array. -/
def realCount (l : Cells) : ℕ :=
  (l.filter isRealCell).length

/-- Number of round-1 match slots (pairs `(2i, 2i+1)`) holding two real
participants — the play-in matches of the produced bracket. -/
def playInMatchesIn (l : Cells) : ℕ :=
  ((List.range (l.length / 2)).filter fun i =>
    isRealCell (l.getD (2 * i) none) && isRealCell (l.getD (2 * i + 1) none)).length

/-- Erase the seed annotation, for conservation statements: placement
rewrites `seed` but must preserve everything else. -/
def eraseSeed (p : Participant) : Participant :=
  { p with seed := none }

/-- A Day-tagged participant, for the concrete scenarios below. -/
def partD (n : String) : Participant :=
  { name := n, isBye := false, seed := none, availability := some 'D' }

/-- A Night-tagged participant, for the concrete scenarios below. -/
def partN (n : String) : Participant :=
  { name := n, isBye := false, seed := none, availability := some 'N' }

/-- An untagged participant, for the concrete scenarios below. -/
def partU (n : String) : Participant :=
  { name := n, isBye := false, seed := none, availability := none }

/-- Spec §3 seed invariant, for one cell: a BYE has no seed, a real
participant's seed is its 1-based slot position. -/
def PGood (i : ℕ) (p : Participant) : Prop :=
  (p.isBye = true → p.seed = none) ∧ (p.isBye = false → p.seed = some (i + 1))

/-- Every occupied cell of the array satisfies the seed invariant. -/
def CellsOk (l : Cells) : Prop :=
  ∀ i p, l[i]? = some (some p) → PGood i p

/-! ## Library of preservation lemmas for the placement loops -/

theorem pGood_withSeed {p : Participant} (j : ℕ) (h : p.isBye = false) :
    PGood j (withSeed p (j + 1)) := by
  constructor
  · intro hb
    rw [show (withSeed p (j + 1)).isBye = p.isBye from rfl] at hb
    rw [h] at hb
    cases hb
  · intro _
    rfl

theorem pGood_bye (j : ℕ) : PGood j createBye := by
  constructor
  · intro _
    rfl
  · intro hb
    cases hb

theorem cellsOk_replicate (n : ℕ) : CellsOk (List.replicate n none) := by
  intro i p h
  rw [List.getElem?_replicate] at h
  split at h
  · cases h
  · cases h

theorem cellsOk_set {l : Cells} {q : Participant} {j : ℕ}
    (hl : CellsOk l) (hq : PGood j q) : CellsOk (l.set j (some q)) := by
  intro i p h
  rw [List.getElem?_set] at h
  by_cases hij : j = i
  · subst hij
    rw [if_pos rfl] at h
    split at h
    · cases h
      exact hq
    · cases h
  · rw [if_neg hij] at h
    exact hl i p h

theorem cellsOk_playInLoop (base : ℕ) (slots : List ℕ) (g : List Participant) (res : Cells)
    (hg : ∀ p ∈ g, p.isBye = false) (h : CellsOk res) :
    CellsOk (playInLoop base slots g res) := by
  induction slots generalizing g res with
  | nil => rw [playInLoop]; exact h
  | cons slot rest ih =>
    match g with
    | [] =>
      rw [playInLoop]
      exact ih [] res (by intro p hp; cases hp) h
    | [p] =>
      rw [playInLoop]
      refine ih [] _ (by intro p hp; cases hp) ?_
      exact cellsOk_set h (pGood_withSeed _ (hg p (by simp)))
    | p :: q :: g' =>
      rw [playInLoop]
      refine ih g' _ (fun r hr => hg r (by simp [hr])) ?_
      refine cellsOk_set (cellsOk_set h ?_) ?_
      · exact pGood_withSeed _ (hg p (by simp))
      · exact pGood_withSeed _ (hg q (by simp))

theorem cellsOk_byeLoop (base : ℕ) (slots : List ℕ) (g : List Participant) (res : Cells)
    (hg : ∀ p ∈ g, p.isBye = false) (h : CellsOk res) :
    CellsOk (byeLoop base slots g res) := by
  induction slots generalizing g res with
  | nil => rw [byeLoop]; exact h
  | cons slot rest ih =>
    match g with
    | [] =>
      rw [byeLoop]
      refine ih [] _ (by intro p hp; cases hp) ?_
      exact cellsOk_set (cellsOk_set h (pGood_bye _)) (pGood_bye _)
    | p :: g' =>
      rw [byeLoop]
      refine ih g' _ (fun r hr => hg r (by simp [hr])) ?_
      refine cellsOk_set (cellsOk_set h ?_) (pGood_bye _)
      exact pGood_withSeed _ (hg p (by simp))

theorem cellsOk_fillNulls {res : Cells} (h : CellsOk res) : CellsOk (fillNulls res) := by
  intro i p hcell
  rw [fillNulls, List.getElem?_map] at hcell
  cases hres : res[i]? with
  | none => rw [hres] at hcell; cases hcell
  | some c =>
    rw [hres] at hcell
    cases c with
    | none =>
      simp only [Option.map_some'] at hcell
      cases hcell
      exact pGood_bye i
    | some q =>
      simp only [Option.map_some'] at hcell
      cases hcell
      exact h i _ hres

theorem cellsOk_fillSection (ps : List Participant) (k base : ℕ) (res : Cells)
    (hg : ∀ p ∈ ps, p.isBye = false) (h : CellsOk res) :
    CellsOk (fillSection base ps k res) := by
  induction ps generalizing k base res with
  | nil => rw [fillSection]; exact h
  | cons p ps ih =>
    match k with
    | 0 => exact h
    | k + 1 =>
      exact ih k (base + 1) _ (fun r hr => hg r (by simp [hr]))
        (cellsOk_set h (pGood_withSeed _ (hg p (by simp))))

theorem cellsOk_dayOverflowLoop (ps : List Participant) (cursor : ℕ) (res : Cells)
    (hg : ∀ p ∈ ps, p.isBye = false) (h : CellsOk res) :
    CellsOk (dayOverflowLoop ps cursor res) := by
  induction ps generalizing cursor res with
  | nil => rw [dayOverflowLoop]; exact h
  | cons p ps ih =>
    rw [dayOverflowLoop]
    split
    · refine ih (cursor + 1) _ (fun r hr => hg r (by simp [hr])) ?_
      exact cellsOk_set h (pGood_withSeed _ (hg p (by simp)))
    · exact ih cursor res (fun r hr => hg r (by simp [hr])) h

theorem cellsOk_nightOverflowLoop (size : ℕ) (ps : List Participant) (idx : ℕ) (res : Cells)
    (hg : ∀ p ∈ ps, p.isBye = false) (h : CellsOk res) :
    CellsOk (nightOverflowLoop size ps idx res) := by
  induction ps generalizing idx res with
  | nil => rw [nightOverflowLoop]; exact h
  | cons p ps ih =>
    rw [nightOverflowLoop]
    split
    · refine ih _ _ (fun r hr => hg r (by simp [hr])) ?_
      exact cellsOk_set h (pGood_withSeed _ (hg p (by simp)))
    · exact ih _ res (fun r hr => hg r (by simp [hr])) h

theorem seedMap_pGood (ps : List Participant) (k : ℕ)
    (hg : ∀ p ∈ ps, p.isBye = false) :
    ∀ i p, (seedMap k ps)[i]? = some (some p) → PGood (k + i) p := by
  induction ps generalizing k with
  | nil => intro i p h; rw [seedMap] at h; cases h : ([] : Cells)[i]? <;> simp_all
  | cons q ps ih =>
    intro i p h
    rw [seedMap] at h
    match i with
    | 0 =>
      simp only [List.getElem?_cons_zero] at h
      cases h
      exact pGood_withSeed k (hg q (by simp))
    | i + 1 =>
      simp only [List.getElem?_cons_succ] at h
      have := ih (k + 1) (fun r hr => hg r (by simp [hr])) i p h
      have harith : k + 1 + i = k + (i + 1) := by omega
      rw [harith] at this
      exact this

theorem cellsOk_seedMap (ps : List Participant)
    (hg : ∀ p ∈ ps, p.isBye = false) : CellsOk (seedMap 0 ps) := by
  intro i p h
  have := seedMap_pGood ps 0 hg i p h
  rw [Nat.zero_add] at this
  exact this

theorem fillNulls_ne_none (res : Cells) (i : ℕ) : (fillNulls res)[i]? ≠ some none := by
  rw [fillNulls, List.getElem?_map]
  cases h : res[i]? with
  | none => simp
  | some c => cases c <;> simp

theorem seedMap_ne_none (ps : List Participant) (k i : ℕ) :
    (seedMap k ps)[i]? ≠ some none := by
  induction ps generalizing k i with
  | nil => rw [seedMap]; simp
  | cons p ps ih =>
    rw [seedMap]
    match i with
    | 0 => simp
    | i + 1 =>
      rw [List.getElem?_cons_succ]
      exact ih (k + 1) i

theorem placeByAvailability_success (s : Shuffler) (ps : List Participant) (n : ℕ) :
    (placeByAvailability s ps n).success = true := by
  simp only [placeByAvailability, placeFullBracket, pureRandomPlayInPlacement,
    availabilityPlayInPlacement, availabilityPlayInCore]
  split
  · split <;> rfl
  · split <;> rfl

/-- All occupied cells of every strategy's output satisfy the seed
invariant, for any lawful shuffle oracle and bye-free input. -/
theorem cellsOk_place (s : Shuffler) (ps : List Participant) (size : ℕ)
    (hs : s.Lawful) (hreal : ∀ p ∈ ps, p.isBye = false) :
    CellsOk (placeByAvailability s ps size).placed := by
  have hfD : ∀ p ∈ ps.filter (fun q => q.availability = some 'D'), p.isBye = false :=
    fun p hp => hreal p (List.mem_filter.1 hp).1
  have hfN : ∀ p ∈ ps.filter (fun q => q.availability = some 'N'), p.isBye = false :=
    fun p hp => hreal p (List.mem_filter.1 hp).1
  have hshP : ∀ (n : ℕ) (g : List Participant), (∀ p ∈ g, p.isBye = false) →
      ∀ p ∈ s.shP n g, p.isBye = false :=
    fun n g hg p hp => hg p ((hs.1 n g).mem_iff.mp hp)
  simp only [placeByAvailability]
  split
  · -- full bracket
    simp only [placeFullBracket]
    split
    · exact cellsOk_seedMap _ (hshP 3 ps hreal)
    · refine cellsOk_nightOverflowLoop _ _ _ _
        (fun p hp => hshP 5 _ hfN p (List.mem_of_mem_drop hp)) ?_
      refine cellsOk_dayOverflowLoop _ _ _
        (fun p hp => hshP 4 _ hfD p (List.mem_of_mem_drop hp)) ?_
      refine cellsOk_fillSection _ _ _ _ (hshP 5 _ hfN) ?_
      exact cellsOk_fillSection _ _ _ _ (hshP 4 _ hfD) (cellsOk_replicate _)
  · split
    · -- pure random
      simp only [pureRandomPlayInPlacement]
      apply cellsOk_fillNulls
      split
      · exact cellsOk_byeLoop _ _ _ _ (hshP 2 ps hreal) (cellsOk_replicate _)
      · refine cellsOk_byeLoop _ _ _ _
          (fun p hp => hshP 2 ps hreal p (List.mem_of_mem_drop hp)) ?_
        exact cellsOk_playInLoop _ _ _ _
          (fun p hp => hshP 2 ps hreal p (List.mem_of_mem_take hp)) (cellsOk_replicate _)
    · -- availability-aware play-in
      simp only [availabilityPlayInPlacement, availabilityPlayInCore]
      apply cellsOk_fillNulls
      refine cellsOk_byeLoop _ _ _ _
        (fun p hp => hshP 1 _ hfN p (List.mem_of_mem_drop hp)) ?_
      refine cellsOk_playInLoop _ _ _ _
        (fun p hp => hshP 1 _ hfN p (List.mem_of_mem_take hp)) ?_
      refine cellsOk_byeLoop _ _ _ _
        (fun p hp => hshP 0 _ hfD p (List.mem_of_mem_drop hp)) ?_
      exact cellsOk_playInLoop _ _ _ _
        (fun p hp => hshP 0 _ hfD p (List.mem_of_mem_take hp)) (cellsOk_replicate _)

/-- In every placement path except full-bracket-with-availability, no cell
of the returned array is left `null`: the partial-bracket strategies end
with the BYE safety net and the no-availability full bracket maps every
cell to a seeded participant. -/
theorem place_ne_none (s : Shuffler) (ps : List Participant) (size : ℕ)
    (h : ps.length ≠ size ∨
      ((ps.filter fun q => q.availability = some 'D').isEmpty ∧
       (ps.filter fun q => q.availability = some 'N').isEmpty)) :
    ∀ i : ℕ, ((placeByAvailability s ps size).placed)[i]? ≠ some none := by
  intro i
  simp only [placeByAvailability]
  split
  · -- full bracket: the hypothesis forces the no-availability branch
    rename_i htot
    simp only [placeFullBracket]
    split
    · exact seedMap_ne_none _ 0 i
    · rename_i hne
      rcases h with h | h
      · exact absurd htot h
      · exact absurd h hne
  · split
    · simp only [pureRandomPlayInPlacement]
      exact fillNulls_ne_none _ i
    · simp only [availabilityPlayInPlacement, availabilityPlayInCore]
      exact fillNulls_ne_none _ i

theorem idShuffler_lawful : idShuffler.Lawful :=
  ⟨fun _ l => List.Perm.refl l, fun _ l => List.Perm.refl l⟩

/-- A non-integral difference misses every integer key of the table, so the
fallback 12.0 applies (shared by the C10 conjuncts). -/
theorem adj_nonInteger (d : ℚ) (h0 : 0 < d) (h60 : d < 60) (hden : d.den ≠ 1) :
    getAdjustmentFactor d = 12.0 := by
  have htk : tableKey d = none := by
    rw [tableKey, if_neg]
    exact fun hc => hden hc.1
  rw [getAdjustmentFactor, if_neg (by intro h; rw [h] at h0; exact lt_irrefl 0 h0),
    if_neg (not_le.mpr h60), htk]

/-! ## The claims -/

/-- C8: for players each having at least one handicap, `calculate` succeeds
with `difference = |effA - effB|`, adjustment 0 at difference 0, the table
value at integer differences 1..59, 12.0 at differences ≥ 60, and
`teamHandicap = min(effA, effB) + adjustment`, where the effective handicap
is the minimum of singles and doubles when both exist, else whichever
exists; handicaps 32 and 45 give difference 13, adjustment 3.8, team
handicap 35.8; a player with neither handicap makes `calculate` fail. -/
theorem C8_teamHandicapCalculator :
    (∀ pA pB a b, getPlayerEffectiveHandicap pA = some a →
      getPlayerEffectiveHandicap pB = some b →
      calculateTeamHandicap pA pB =
        { success := true,
          teamHandicap := some (min a b + getAdjustmentFactor |a - b|),
          playerAHandicap := some a, playerBHandicap := some b,
          difference := some |a - b|,
          adjustment := some (getAdjustmentFactor |a - b|),
          betterHandicap := some (min a b) }) ∧
    getAdjustmentFactor 0 = 0 ∧
    (∀ d : ℚ, 60 ≤ d → getAdjustmentFactor d = 12.0) ∧
    (∀ k : ℕ, 1 ≤ k → k ≤ 59 →
      ∃ v, ADJUSTMENT_TABLE k = some v ∧ getAdjustmentFactor (k : ℚ) = v) ∧
    (∀ x y : ℚ, getPlayerEffectiveHandicap ⟨some x, some y⟩ = some (min x y)) ∧
    (∀ x : ℚ, getPlayerEffectiveHandicap ⟨some x, none⟩ = some x) ∧
    (∀ y : ℚ, getPlayerEffectiveHandicap ⟨none, some y⟩ = some y) ∧
    (∀ pA pB, getPlayerEffectiveHandicap pA = none ∨ getPlayerEffectiveHandicap pB = none →
      (calculateTeamHandicap pA pB).success = false) ∧
    calculateTeamHandicap ⟨some 32, none⟩ ⟨some 45, none⟩ =
      { success := true, teamHandicap := some 35.8, playerAHandicap := some 32,
        playerBHandicap := some 45, difference := some 13, adjustment := some 3.8,
        betterHandicap := some 32 } := by
  refine ⟨?_, ?_, ?_, ?_, fun x y => rfl, fun x => rfl, fun y => rfl, ?_, ?_⟩
  · intro pA pB a b ha hb
    simp only [calculateTeamHandicap, ha, hb]
  · rfl
  · intro d hd
    rw [getAdjustmentFactor, if_neg (by intro h0; rw [h0] at hd; norm_num at hd), if_pos hd]
  · intro k h1 h59
    have hsome : ∀ m : ℕ, m < 60 → 1 ≤ m → (ADJUSTMENT_TABLE m).isSome = true := by decide
    obtain ⟨v, hv⟩ := Option.isSome_iff_exists.mp (hsome k (by omega) h1)
    refine ⟨v, hv, ?_⟩
    have htk : tableKey (k : ℚ) = some k := by
      rw [tableKey, if_pos ⟨Rat.den_natCast k, by rw [Rat.num_natCast]; exact Int.natCast_nonneg k⟩]
      rw [Rat.num_natCast, Int.toNat_ofNat]
    rw [getAdjustmentFactor,
      if_neg (by rw [Nat.cast_eq_zero]; omega),
      if_neg (by rw [not_le]; exact_mod_cast (by omega : k < 60)), htk]
    show (ADJUSTMENT_TABLE k).getD 12.0 = v
    rw [hv]
    rfl
  · intro pA pB h
    rcases hA : getPlayerEffectiveHandicap pA with _ | a <;>
      rcases hB : getPlayerEffectiveHandicap pB with _ | b <;>
        simp_all [calculateTeamHandicap]
  · have hd : |(32 : ℚ) - 45| = 13 := by norm_num
    have hm : min (32 : ℚ) 45 = 32 := by norm_num [min_def]
    have hadj : getAdjustmentFactor 13 = 3.8 := rfl
    simp only [calculateTeamHandicap, getPlayerEffectiveHandicap, hd, hm, hadj]
    norm_num

/-- Witness for C8 at concrete players. -/
theorem C8_witness :
    calculateTeamHandicap ⟨some 30, none⟩ ⟨none, some 41⟩ =
      { success := true,
        teamHandicap := some (min 30 41 + getAdjustmentFactor |30 - 41|),
        playerAHandicap := some 30, playerBHandicap := some 41,
        difference := some |30 - 41|,
        adjustment := some (getAdjustmentFactor |30 - 41|),
        betterHandicap := some (min 30 41) } ∧
    (calculateTeamHandicap ⟨none, none⟩ ⟨some 5, none⟩).success = false :=
  ⟨C8_teamHandicapCalculator.1 _ _ 30 41 rfl rfl,
   C8_teamHandicapCalculator.2.2.2.2.2.2.2.1 _ _ (Or.inl rfl)⟩

/-- C9: the class rounder leaves negative handicaps and handicaps ≤ 19
unchanged regardless of bounds, passes through when the event has no
bounds, and otherwise clamps (cap above max, raise below min) to the
bounds found by substring match on the event name; `round(45, "3rd Class")
= 39`, `round(15, "3rd Class") = 15`, `round(10, "Club Championship") =
10`. -/
theorem C9_handicapClassRounder :
    (∀ (h : ℚ) (e : String), h < 0 → roundForEvent h e = h) ∧
    (∀ (h : ℚ) (e : String), h ≤ 19 → roundForEvent h e = h) ∧
    (∀ (h : ℚ) (e : String), getEventClassBounds e = none → roundForEvent h e = h) ∧
    (∀ (h lo hi : ℚ) (e : String), 19 < h → lo ≤ hi →
      getEventClassBounds e = some ⟨some lo, some hi⟩ →
      roundForEvent h e = max lo (min hi h)) ∧
    (∀ (h hi : ℚ) (e : String), 19 < h →
      getEventClassBounds e = some ⟨none, some hi⟩ →
      roundForEvent h e = min hi h) ∧
    roundForEvent 45 "3rd Class" = 39 ∧
    roundForEvent 15 "3rd Class" = 15 ∧
    roundForEvent 10 "Club Championship" = 10 := by
  refine ⟨?_, ?_, ?_, ?_, ?_, ?_, ?_, ?_⟩
  · intro h e hlt
    cases hbnd : getEventClassBounds e with
    | none => simp [roundForEvent, roundHandicapForClass, hbnd]
    | some b => simp [roundForEvent, roundHandicapForClass, hbnd, hlt]
  · intro h e hle
    cases hbnd : getEventClassBounds e with
    | none => simp [roundForEvent, roundHandicapForClass, hbnd]
    | some b =>
      simp only [roundForEvent, roundHandicapForClass, hbnd]
      split_ifs <;> simp_all
  · intro h e hbnd
    simp [roundForEvent, roundHandicapForClass, hbnd]
  · intro h lo hi e h19 hlohi hbnd
    simp only [roundForEvent, roundHandicapForClass, hbnd]
    rw [if_neg (by linarith), if_neg (by linarith)]
    simp only [gt_iff_lt, max_def, min_def]
    split_ifs <;> linarith
  · intro h hi e h19 hbnd
    simp only [roundForEvent, roundHandicapForClass, hbnd]
    rw [if_neg (by linarith), if_neg (by linarith)]
    simp only [gt_iff_lt, min_def]
    split_ifs <;> linarith
  · have hb : getEventClassBounds "3rd Class" = some ⟨some 30.0, some 39.0⟩ := rfl
    rw [roundForEvent, hb]
    norm_num [roundHandicapForClass]
  · have hb : getEventClassBounds "3rd Class" = some ⟨some 30.0, some 39.0⟩ := rfl
    rw [roundForEvent, hb]
    norm_num [roundHandicapForClass]
  · have hb : getEventClassBounds "Club Championship" = none := rfl
    rw [roundForEvent, hb]
    rfl

/-- Witness for C9 at concrete handicaps and event names. -/
theorem C9_witness :
    roundForEvent (-3) "4th Class" = -3 ∧
    roundForEvent 45 "4th Class" = max 40.0 (min 49.0 45) :=
  ⟨C9_handicapClassRounder.1 (-3) "4th Class" (by norm_num),
   C9_handicapClassRounder.2.2.2.1 45 40.0 49.0 "4th Class" (by norm_num) (by norm_num) rfl⟩

/-- C10: a non-integer difference strictly between 0 and 60 misses every
key of the adjustment table, so `getAdjustmentFactor` falls back to 12.0,
and `calculateTeamHandicap` applies the maximum adjustment whenever the
effective handicaps differ by such an amount (e.g. 13.5). -/
theorem C10_nonIntegerDifference :
    (∀ d : ℚ, 0 < d → d < 60 → d.den ≠ 1 → getAdjustmentFactor d = 12.0) ∧
    (∀ pA pB a b, getPlayerEffectiveHandicap pA = some a →
      getPlayerEffectiveHandicap pB = some b → (|a - b|).den ≠ 1 → |a - b| < 60 →
      (calculateTeamHandicap pA pB).adjustment = some 12.0) ∧
    getAdjustmentFactor (27 / 2 : ℚ) = 12.0 := by
  refine ⟨adj_nonInteger, ?_, ?_⟩
  · intro pA pB a b ha hb hden h60
    have hne : |a - b| ≠ 0 := by
      intro h
      rw [h] at hden
      exact hden rfl
    have h0 : 0 < |a - b| := lt_of_le_of_ne (abs_nonneg _) (Ne.symm hne)
    simp only [calculateTeamHandicap, ha, hb]
    rw [adj_nonInteger _ h0 h60 hden]
  · exact adj_nonInteger _ (by norm_num) (by norm_num) (by norm_num)

/-- Witness for C10 at difference 13.5. -/
theorem C10_witness :
    getAdjustmentFactor (27 / 2 : ℚ) = 12.0 ∧
    (calculateTeamHandicap ⟨some 32, none⟩ ⟨some (91 / 2), none⟩).adjustment = some 12.0 := by
  constructor
  · exact C10_nonIntegerDifference.1 (27 / 2) (by norm_num) (by norm_num) (by norm_num)
  · refine C10_nonIntegerDifference.2.1 _ _ 32 (91 / 2) rfl rfl ?_ ?_
    · rw [show |(32 : ℚ) - 91 / 2| = 27 / 2 by norm_num]
      norm_num
    · rw [show |(32 : ℚ) - 91 / 2| = 27 / 2 by norm_num]
      norm_num

/-- C3 counterexample: in a match whose two sides are both BYE (which the
engine produces for partial brackets), `buildRound1` sets `winner` to the
first BYE instead of leaving it null. -/
theorem C3_bothByes_counterexample :
    ((buildRound1 [withSeed (partU "a") 1, createBye, createBye, createBye, createBye,
        createBye, createBye, createBye])[1]?).map Match.winner = some (some createBye) ∧
    createBye.isBye = true := by
  decide

/-- C3 (amended): `buildRound1` pairs slot `2i` with `2i+1` into match
`i+1`; the winner is the non-BYE side when exactly one side is a BYE and
null when neither side is a BYE, but when BOTH sides are BYE the winner is
set to `player1` (the first BYE), not left null. -/
theorem C3_buildRound1 :
    (∀ slots : List Participant, 2 ∣ slots.length →
      (buildRound1 slots).length = slots.length / 2) ∧
    (∀ (slots : List Participant) (i : ℕ) (p1 p2 : Participant),
      slots[2 * i]? = some p1 → slots[2 * i + 1]? = some p2 →
      ∃ m, (buildRound1 slots)[i]? = some m ∧ m.matchNumber = i + 1 ∧
        m.player1 = some p1 ∧ m.player2 = some p2 ∧
        (p1.isBye = false → p2.isBye = true → m.winner = some p1) ∧
        (p1.isBye = true → p2.isBye = false → m.winner = some p2) ∧
        (p1.isBye = false → p2.isBye = false → m.winner = none) ∧
        (p1.isBye = true → p2.isBye = true → m.winner = some p1)) := by
  constructor
  · intro slots hdvd
    obtain ⟨c, hc⟩ := hdvd
    simp only [buildRound1, List.length_map, List.length_range, hc]
    omega
  · intro slots i p1 p2 h1 h2
    have hlt : 2 * i + 1 < slots.length := by
      obtain ⟨hl, -⟩ := List.getElem?_eq_some.1 h2
      exact hl
    have hi : i < (slots.length + 1) / 2 := by omega
    refine ⟨{ matchNumber := i + 1, player1 := slots[2 * i]?, player2 := slots[2 * i + 1]?,
              winner := match slots[2 * i]?, slots[2 * i + 1]? with
                        | some q1, some q2 =>
                          if q2.isBye then some q1 else if q1.isBye then some q2 else none
                        | _, _ => none },
            ?_, rfl, ?_, ?_, ?_, ?_, ?_, ?_⟩
    · rw [buildRound1, List.getElem?_map, List.getElem?_range hi, Option.map_some']
    · exact h1
    · exact h2
    · intro hb1 hb2
      simp only [h1, h2, hb1, hb2]
      rfl
    · intro hb1 hb2
      simp only [h1, h2, hb1, hb2]
      rfl
    · intro hb1 hb2
      simp only [h1, h2, hb1, hb2]
      rfl
    · intro hb1 hb2
      simp only [h1, h2, hb1, hb2]
      rfl

/-- Witness for C3 at a two-slot array with one real player and one BYE. -/
theorem C3_witness :
    (buildRound1 [withSeed (partU "x") 1, createBye]).length = 1 ∧
    ∃ m, (buildRound1 [withSeed (partU "x") 1, createBye])[0]? = some m ∧
      m.winner = some (withSeed (partU "x") 1) := by
  constructor
  · exact C3_buildRound1.1 [withSeed (partU "x") 1, createBye] (by decide)
  · obtain ⟨m, hm, -, -, -, hw, -, -, -⟩ :=
      C3_buildRound1.2 [withSeed (partU "x") 1, createBye] 0 (withSeed (partU "x") 1)
        createBye rfl rfl
    exact ⟨m, hm, hw rfl rfl⟩

/-- C6 counterexample: nine participants in a bracket of 8 do NOT produce
an `InvalidSizeError` failure; the call succeeds. -/
theorem C6_oversize_counterexample :
    (seedParticipants idShuffler
      [partU "a", partU "b", partU "c", partU "d", partU "e", partU "f", partU "g",
       partU "h", partU "i"] 8).success = true ∧
    (seedParticipants idShuffler
      [partU "a", partU "b", partU "c", partU "d", partU "e", partU "f", partU "g",
       partU "h", partU "i"] 8).error = none := by
  constructor
  · decide
  · decide

/-- C6 (amended): `place` does not validate `participants.length ≤
bracketSize`: with nonempty participants and an allowed size, a call with
`participants.length > bracketSize` still returns a success result with no
error (the excess participants are silently not placed). -/
theorem C6_oversize_succeeds (s : Shuffler) (ps : List Participant) (size : ℕ)
    (hne : ps ≠ []) (hsize : size ∈ allowedSizes) (_hgt : size < ps.length) :
    (seedParticipants s ps size).success = true ∧
    (seedParticipants s ps size).error = none := by
  have hlen : ¬ps.length = 0 := fun h => hne (List.length_eq_zero.mp h)
  constructor
  · rw [seedParticipants, if_neg hlen, if_neg (not_not_intro hsize)]
    exact placeByAvailability_success s ps size
  · rw [seedParticipants, if_neg hlen, if_neg (not_not_intro hsize)]

/-- Witness for C6: ten participants (one Day-tagged) in a bracket of 8. -/
theorem C6_witness :
    (seedParticipants idShuffler
      [partD "x", partU "b", partU "c", partU "d", partU "e", partU "f", partU "g",
       partU "h", partU "i", partU "j"] 8).success = true ∧
    (seedParticipants idShuffler
      [partD "x", partU "b", partU "c", partU "d", partU "e", partU "f", partU "g",
       partU "h", partU "i", partU "j"] 8).error = none :=
  C6_oversize_succeeds idShuffler _ 8 (by simp) (by decide) (by decide)

/-- C7 counterexample: with empty participants AND a disallowed size (7),
the failure is `EmptyInputError`, not `InvalidSizeError` as the claim
requires for every disallowed size. -/
theorem C7_precedence_counterexample :
    (seedParticipants idShuffler [] 7).error = some PlaceError.emptyInput ∧
    (seedParticipants idShuffler [] 7).error ≠ some PlaceError.invalidSize := by
  constructor
  · rfl
  · decide

/-- C7 (amended): the empty-input check precedes the size check: empty
participants fail with `EmptyInputError` (even when the size is also
disallowed); nonempty participants with a disallowed size fail with
`InvalidSizeError`; every failure is a structured result carrying no slot
array, and a call fails exactly when the input is empty or the size is
disallowed (the embedded pipeline is total — no exception escapes). -/
theorem C7_validation (s : Shuffler) (ps : List Participant) (size : ℕ) :
    (ps = [] → seedParticipants s ps size =
      { success := false, error := some PlaceError.emptyInput, placed := none }) ∧
    (ps ≠ [] → size ∉ allowedSizes → seedParticipants s ps size =
      { success := false, error := some PlaceError.invalidSize, placed := none }) ∧
    ((seedParticipants s ps size).success = false ↔ ps = [] ∨ size ∉ allowedSizes) := by
  refine ⟨?_, ?_, ?_, ?_⟩
  · intro h
    subst h
    rfl
  · intro hne hmem
    rw [seedParticipants, if_neg (fun hc => hne (List.length_eq_zero.mp hc)), if_pos hmem]
  · intro hfail
    by_contra hc
    push_neg at hc
    rw [seedParticipants, if_neg (fun h0 => hc.1 (List.length_eq_zero.mp h0)),
      if_neg (not_not_intro hc.2)] at hfail
    have hx : (placeByAvailability s ps size).success = false := hfail
    rw [placeByAvailability_success] at hx
    cases hx
  · intro hor
    rcases hor with h | h
    · subst h
      rfl
    · by_cases hps : ps = []
      · subst hps
        rfl
      · rw [seedParticipants, if_neg (fun hc => hps (List.length_eq_zero.mp hc)), if_pos h]

/-- Witness for C7 at an empty call and at a disallowed size. -/
theorem C7_witness :
    seedParticipants idShuffler [] 8 =
      { success := false, error := some PlaceError.emptyInput, placed := none } ∧
    seedParticipants idShuffler [partU "x"] 7 =
      { success := false, error := some PlaceError.invalidSize, placed := none } :=
  ⟨(C7_validation idShuffler [] 8).1 rfl,
   (C7_validation idShuffler [partU "x"] 7).2.1 (by simp) (by decide)⟩

/-- C1: evaluation at a failing input.  With five participants (one
Day-tagged, four untagged) in a bracket of 8, the spec and the engine's own
documentation require `max(0, 5 - 4) = 1` round-1 match with two real
participants, but the availability-aware path produces 0: the four untagged
participants never enter the Day/Night partition and neither group can
absorb the play-in shortfall, which the code then silently drops.  (Here
the shuffle outcome is the identity permutation, one reachable outcome of
Fisher-Yates.) -/
theorem C1_playInCount_bug :
    playInMatchesIn ((seedParticipants idShuffler
      [partD "A", partU "B", partU "C", partU "D", partU "E"] 8).placed.getD []) = 0 ∧
    Max.max 0 (5 - 8 / 2) = 1 := by
  constructor
  · have h0 : seedParticipants idShuffler
        [partD "A", partU "B", partU "C", partU "D", partU "E"] 8 =
        { success := true, error := none,
          placed := some (availabilityPlayInPlacement idShuffler [partD "A"] [] 5 8 1).placed } :=
      rfl
    have h1 : availabilityPlayInPlacement idShuffler [partD "A"] [] 5 8 1 =
        availabilityPlayInCore idShuffler [partD "A"] [] 8 1 0 := by
      unfold availabilityPlayInPlacement
      norm_num [jsRound]
    rw [h0]
    simp only [Option.getD_some]
    rw [h1]
    decide
  · decide

/-- C2: evaluation at a failing input.  With two participants (one
Day-tagged, one untagged) in a bracket of 8, the claim requires both to
appear in the slot array, but the returned array holds exactly one real
participant: the untagged one is silently dropped as soon as any
availability tag is present. -/
theorem C2_conservation_bug :
    realCount ((seedParticipants idShuffler [partD "A", partU "B"] 8).placed.getD []) = 1 ∧
    [partD "A", partU "B"].length = 2 := by
  constructor
  · have h0 : seedParticipants idShuffler [partD "A", partU "B"] 8 =
        { success := true, error := none,
          placed := some (availabilityPlayInPlacement idShuffler [partD "A"] [] 2 8 0).placed } :=
      rfl
    have h1 : availabilityPlayInPlacement idShuffler [partD "A"] [] 2 8 0 =
        availabilityPlayInCore idShuffler [partD "A"] [] 8 0 0 := by
      unfold availabilityPlayInPlacement
      norm_num [jsRound]
    rw [h0]
    simp only [Option.getD_some]
    rw [h1]
    decide
  · decide

/-- C4 counterexample: a successful `place` call on a FULL bracket (8
participants, one Day-tagged, seven untagged, bracket size 8) returns an
array whose cell 1 is still null — the full-bracket-with-availability path
has no BYE safety net. -/
theorem C4_nullCell_counterexample :
    (seedParticipants idShuffler
      [partD "A", partU "B", partU "C", partU "D", partU "E", partU "F", partU "G", partU "H"]
      8).success = true ∧
    (((seedParticipants idShuffler
      [partD "A", partU "B", partU "C", partU "D", partU "E", partU "F", partU "G", partU "H"]
      8).placed.getD [])[1]?) = some none := by
  constructor
  · decide
  · decide

/-- C4 (amended): the null-safety net holds in every placement path except
full-bracket-with-availability: whenever `participants.length ≠
bracketSize`, or no participant carries a 'D'/'N' tag, no cell of the
returned slot array is null; the full-bracket-with-availability path alone
can return null cells. -/
theorem C4_noNullCells (s : Shuffler) (ps : List Participant) (size : ℕ) (l : Cells)
    (h : ps.length ≠ size ∨ ∀ p ∈ ps, p.availability ≠ some 'D' ∧ p.availability ≠ some 'N')
    (hplaced : (seedParticipants s ps size).placed = some l) :
    ∀ i : ℕ, l[i]? ≠ some none := by
  by_cases h0 : ps.length = 0
  · rw [seedParticipants, if_pos h0] at hplaced
    exact absurd hplaced (by simp)
  · by_cases hsz : size ∉ allowedSizes
    · rw [seedParticipants, if_neg h0, if_pos hsz] at hplaced
      exact absurd hplaced (by simp)
    · rw [seedParticipants, if_neg h0, if_neg hsz] at hplaced
      replace hplaced : some (placeByAvailability s ps size).placed = some l := hplaced
      have hl : (placeByAvailability s ps size).placed = l := Option.some.inj hplaced
      subst hl
      refine place_ne_none s ps size (h.imp id fun hall => ⟨?_, ?_⟩)
      · rw [List.isEmpty_iff, List.filter_eq_nil_iff]
        intro p hp hPred
        exact absurd (of_decide_eq_true hPred) (hall p hp).1
      · rw [List.isEmpty_iff, List.filter_eq_nil_iff]
        intro p hp hPred
        exact absurd (of_decide_eq_true hPred) (hall p hp).2

/-- Witness for C4: a partial bracket (one untagged participant, size 8)
has no null cells. -/
theorem C4_witness :
    (((seedParticipants idShuffler [partU "w"] 8).placed.getD [])[0]?) ≠ some none :=
  C4_noNullCells idShuffler [partU "w"] 8
    ((seedParticipants idShuffler [partU "w"] 8).placed.getD [])
    (Or.inl (by decide)) rfl 0

/-- C5: the seed invariant.  For every lawful shuffle outcome and every
successful `place` call on (non-BYE) participants, each cell of the
returned array that holds a participant satisfies: a BYE cell has `seed =
null`, and a real participant at index `i` has `seed = i + 1`, assigned by
final slot position. -/
theorem C5_seedInvariant (s : Shuffler) (ps : List Participant) (size : ℕ) (l : Cells)
    (hs : s.Lawful) (hreal : ∀ p ∈ ps, p.isBye = false)
    (hplaced : (seedParticipants s ps size).placed = some l) :
    ∀ i p, l[i]? = some (some p) →
      (p.isBye = true → p.seed = none) ∧ (p.isBye = false → p.seed = some (i + 1)) := by
  by_cases h0 : ps.length = 0
  · rw [seedParticipants, if_pos h0] at hplaced
    exact absurd hplaced (by simp)
  · by_cases hsz : size ∉ allowedSizes
    · rw [seedParticipants, if_neg h0, if_pos hsz] at hplaced
      exact absurd hplaced (by simp)
    · rw [seedParticipants, if_neg h0, if_neg hsz] at hplaced
      replace hplaced : some (placeByAvailability s ps size).placed = some l := hplaced
      have hl : (placeByAvailability s ps size).placed = l := Option.some.inj hplaced
      subst hl
      exact fun i p hc => cellsOk_place s ps size hs hreal i p hc

/-- Witness for C5: the single real participant of a one-entrant bracket
of 8 lands in slot 0 with seed 1. -/
theorem C5_witness : (withSeed (partU "w") 1).seed = some (0 + 1) :=
  (C5_seedInvariant idShuffler [partU "w"] 8
    ((seedParticipants idShuffler [partU "w"] 8).placed.getD [])
    idShuffler_lawful (by decide) rfl 0 (withSeed (partU "w") 1) (by decide)).2 (by decide)

end RTC
